import Mathlib

/-!
Shallow embedding of `go-geojson` (`geojson.go`), a library for building and
marshalling GeoJSON (RFC 7946) objects, together with proofs about the claims
of its specification.

Modelling conventions:
* Go `float64` coordinate values are modelled as rationals (`ℚ`); the spec
  restricts positions to finite floating-point numbers, and all concrete
  inputs below are exactly representable.
* Go slices distinguish `nil` from empty: a variadic parameter receives the
  `nil` slice when the caller supplies zero arguments, and `encoding/json`
  renders a `nil` slice as `null`.  `GoList` keeps this distinction.
* Go's `panic` in `NewLinearRing` is modelled as an `Except` error
  (`GeoJSONError.invalidRing`), and `json.Marshal`'s error result as
  `GeoJSONError.encodingFailed`.
* `map[string]any` property values are modelled by `GoValue`, which includes
  an `unsupported` constructor for values the JSON serializer rejects
  (e.g. channels or functions), making the encoder's error path explicit.
-/

set_option maxRecDepth 10000

namespace GoGeoJSON

/-- Left-pad a string with `'0'` up to length `n`. -/
def padZeros (s : String) (n : Nat) : String :=
  if s.length < n then String.mk (List.replicate (n - s.length) '0') ++ s else s

/-- Fixed-point decimal formatting with six digits after the point, as
produced by Go's `fmt.Sprintf("%f", x)` for (finite) values; rounding to six
decimals is round-half-up on the rational value. -/
def formatFixed6 (q : ℚ) : String :=
  let sign := if q < 0 then "-" else ""
  let scaled : Nat := (q.num.natAbs * 1000000 * 2 + q.den) / (2 * q.den)
  sign ++ toString (scaled / 1000000) ++ "." ++ padZeros (toString (scaled % 1000000)) 6

/-- Model of `Position` (geojson.go): a longitude/latitude pair. -/
structure Position where
  longitude : ℚ
  latitude : ℚ
deriving DecidableEq, Repr

/-- Model of `Position.MarshalJSON` (geojson.go): `fmt.Sprintf("[%f,%f]", p.Longitude, p.Latitude)`. -/
def Position.MarshalJSON (p : Position) : String :=
  "[" ++ formatFixed6 p.longitude ++ "," ++ formatFixed6 p.latitude ++ "]"

/-- A Go slice, keeping the `nil` vs non-`nil` distinction that matters to
`encoding/json` (a `nil` slice marshals as `null`). -/
inductive GoList (α : Type) where
  | goNil : GoList α
  | mk (elems : List α) : GoList α
deriving DecidableEq, Repr

/-- The elements of a Go slice (`nil` has none). -/
def GoList.toList : GoList α → List α
  | .goNil => []
  | .mk l => l

/-- Go's `len` on a slice (`len(nil) = 0`). -/
def GoList.length : GoList α → Nat
  | .goNil => 0
  | .mk l => l.length

/-- The slice a Go variadic parameter receives: the `nil` slice when the
caller passes zero arguments, otherwise a fresh slice of the arguments. -/
def goVariadic : List α → GoList α
  | [] => .goNil
  | l => .mk l

/-- `encoding/json` rendering of a JSON array given renderings of the
elements. -/
def marshalArray (parts : List String) : String :=
  "[" ++ String.intercalate (",") parts ++ "]"

/-- `encoding/json` rendering of a Go slice: `null` when `nil`, otherwise a
JSON array of the elements' renderings. -/
def GoList.marshalWith (enc : α → String) : GoList α → String
  | .goNil => "null"
  | .mk l => marshalArray (l.map enc)

/-- The two error conditions of the library: the `panic` in `NewLinearRing`
and an error from the underlying JSON serializer. -/
inductive GeoJSONError where
  | invalidRing (msg : String)
  | encodingFailed (msg : String)
deriving DecidableEq, Repr

/-- Model of `LineStringCoordinates` (geojson.go): `[]Position` (always built non-nil
by its constructor). -/
abbrev LineStringCoordinates := List Position

/-- Model of `LinearRing` (geojson.go): `[]Position`. -/
abbrev LinearRing := List Position

/-- Model of `PolygonCoordinates` (geojson.go): `[]LinearRing`. -/
abbrev PolygonCoordinates := List LinearRing

/-- Model of `NewLineStringCoordinates` (geojson.go): appends `c0, c1, cn...` to a
fresh empty slice. -/
def NewLineStringCoordinates (c0 c1 : Position) (cn : List Position) :
    LineStringCoordinates :=
  [c0, c1] ++ cn

/-- Model of `NewLinearRing` (geojson.go): appends `c0, c1, c2, c3, cn...` to a fresh
slice and panics (modelled as `Except.error`) when the last element differs
from `c0`. -/
def NewLinearRing (c0 c1 c2 c3 : Position) (cn : List Position) :
    Except GeoJSONError LinearRing :=
  if ([c0, c1, c2, c3] ++ cn).getLast (by simp) ≠ c0 then
    Except.error (GeoJSONError.invalidRing
      ("start position does not match end position"))
  else
    Except.ok ([c0, c1, c2, c3] ++ cn)

/-- Model of `NewPolygonCoordinates` (geojson.go): appends `outerBoundary, holes...`
to a fresh empty slice. -/
def NewPolygonCoordinates (outerBoundary : LinearRing) (holes : List LinearRing) :
    PolygonCoordinates :=
  [outerBoundary] ++ holes

example : formatFixed6 1 = "1.000000" := by decide
example : formatFixed6 2 = "2.000000" := by decide
example : formatFixed6 0 = "0.000000" := by decide
example : formatFixed6 (mkRat 3 2) = "1.500000" := by decide
example : Position.MarshalJSON ⟨1, 2⟩ = "[1.000000,2.000000]" := by decide

/-- Model of the `Geometry` interface (geojson.go) as a closed union of the
seven variants implementing it.  For `geometryCollection`, `isNil` records
whether the underlying `[]Geometry` slice is Go's nil slice. -/
inductive Geometry where
  | point (coordinates : Position) : Geometry
  | multiPoint (coordinates : GoList Position) : Geometry
  | lineString (coordinates : LineStringCoordinates) : Geometry
  | multiLineString (coordinates : GoList LineStringCoordinates) : Geometry
  | polygon (coordinates : PolygonCoordinates) : Geometry
  | multiPolygon (coordinates : GoList PolygonCoordinates) : Geometry
  | geometryCollection (isNil : Bool) (geometries : List Geometry) : Geometry

/-- Model of `NewPoint` (geojson.go). -/
def NewPoint (p : Position) : Geometry := Geometry.point p

/-- Model of `NewMultiPoint` (geojson.go): wraps the variadic argument slice. -/
def NewMultiPoint (pn : List Position) : Geometry :=
  Geometry.multiPoint (goVariadic pn)

/-- Model of `NewLineString` (geojson.go). -/
def NewLineString (c0 c1 : Position) (cn : List Position) : Geometry :=
  Geometry.lineString (NewLineStringCoordinates c0 c1 cn)

/-- Model of `NewMultiLineString` (geojson.go): wraps the variadic argument
slice. -/
def NewMultiLineString (coordinates : List LineStringCoordinates) : Geometry :=
  Geometry.multiLineString (goVariadic coordinates)

/-- Model of `NewPolygon` (geojson.go). -/
def NewPolygon (outerBoundary : LinearRing) (holes : List LinearRing) : Geometry :=
  Geometry.polygon (NewPolygonCoordinates outerBoundary holes)

/-- Model of `NewMultiPolygon` (geojson.go): wraps the variadic argument
slice. -/
def NewMultiPolygon (coordinates : List PolygonCoordinates) : Geometry :=
  Geometry.multiPolygon (goVariadic coordinates)

/-- Model of `NewGeometryCollection` (geojson.go): wraps the variadic
argument slice (the nil slice when no geometries are given). -/
def NewGeometryCollection (geometries : List Geometry) : Geometry :=
  match geometries with
  | [] => Geometry.geometryCollection true []
  | gs => Geometry.geometryCollection false gs

/-- Model of the `Type` methods of the seven geometry variants (geojson.go). -/
def Geometry.Type' : Geometry → String
  | .point _ => "Point"
  | .multiPoint _ => "MultiPoint"
  | .lineString _ => "LineString"
  | .multiLineString _ => "MultiLineString"
  | .polygon _ => "Polygon"
  | .multiPolygon _ => "MultiPolygon"
  | .geometryCollection _ _ => "GeometryCollection"

/-- Rendering of the anonymous struct in
`marshalGeoJSONGeometryWithCoordinates` (geojson.go): a JSON object with the
`type` tag first and the rendered `coordinates` second. -/
def marshalTypeAndCoordinates (typeTag coordinates : String) : String :=
  "\x7b\"type\":\"" ++ typeTag ++ "\",\"coordinates\":" ++ coordinates ++ "\x7d"

/-- Rendering of one linear ring or line string as a JSON array of positions. -/
def marshalPositions (ps : List Position) : String :=
  marshalArray (ps.map Position.MarshalJSON)

mutual

/-- Model of `json.Marshal` applied to a geometry value (geojson.go): the six
coordinate variants implement `MarshalJSON` through
`marshalGeoJSONGeometryWithCoordinates`; `GeometryCollection` implements no
`MarshalJSON`, so `encoding/json` renders its underlying `[]Geometry` slice
directly, as a bare JSON array (or `null` for the nil slice). -/
def Geometry.MarshalJSON : Geometry → String
  | .point p => marshalTypeAndCoordinates ("Point") (Position.MarshalJSON p)
  | .multiPoint ps =>
      marshalTypeAndCoordinates ("MultiPoint") (GoList.marshalWith Position.MarshalJSON ps)
  | .lineString cs =>
      marshalTypeAndCoordinates ("LineString") (marshalPositions cs)
  | .multiLineString ls =>
      marshalTypeAndCoordinates ("MultiLineString") (GoList.marshalWith marshalPositions ls)
  | .polygon rings =>
      marshalTypeAndCoordinates ("Polygon") (marshalArray (rings.map marshalPositions))
  | .multiPolygon ps =>
      marshalTypeAndCoordinates ("MultiPolygon")
        (GoList.marshalWith (fun poly => marshalArray (poly.map marshalPositions)) ps)
  | .geometryCollection true _ => "null"
  | .geometryCollection false gs => "[" ++ marshalGeometryList gs ++ "]"

/-- Comma-separated renderings of a list of geometries (the element loop of
`encoding/json`'s array encoder). -/
def marshalGeometryList : List Geometry → String
  | [] => ""
  | [g] => Geometry.MarshalJSON g
  | g :: g2 :: gs => Geometry.MarshalJSON g ++ "," ++ marshalGeometryList (g2 :: gs)

end

/-- Hex digit character for a value below 16 (lowercase, as `encoding/json`
prints escape sequences). -/
def hexDigitChar (n : Nat) : Char :=
  if n < 10 then Char.ofNat (48 + n) else Char.ofNat (87 + n)

/-- Escaping of one character by `encoding/json`'s string encoder (with its
default HTML escaping). -/
def escapeChar (c : Char) : String :=
  if c = '"' then "\\\""
  else if c = '\\' then "\\\\"
  else if c = '<' then "\\u003c"
  else if c = '>' then "\\u003e"
  else if c = '&' then "\\u0026"
  else if c = '\n' then "\\n"
  else if c = '\r' then "\\r"
  else if c = '\t' then "\\t"
  else if c.toNat < 32 then
    "\\u00" ++ String.mk [hexDigitChar (c.toNat / 16), hexDigitChar (c.toNat % 16)]
  else if c.toNat = 8232 then "\\u2028"
  else if c.toNat = 8233 then "\\u2029"
  else String.mk [c]

/-- Model of `encoding/json`'s rendering of a Go string. -/
def marshalString (s : String) : String :=
  "\"" ++ String.join (s.data.map escapeChar) ++ "\""

/-- Model of the `any` values storable in a feature's `Properties` map:
JSON-representable strings, integers, booleans and `nil`, plus an
`unsupported` marker for values `encoding/json` rejects (channels,
functions, ...). -/
inductive GoValue where
  | str (s : String) : GoValue
  | int (n : ℤ) : GoValue
  | boolean (b : Bool) : GoValue
  | null : GoValue
  | unsupported (description : String) : GoValue
deriving DecidableEq, Repr

/-- Model of `json.Marshal` on a single property value; `unsupported` values
produce the serializer's error. -/
def GoValue.marshal : GoValue → Except GeoJSONError String
  | .str s => Except.ok (marshalString s)
  | .int n => Except.ok (toString n)
  | .boolean b => Except.ok (if b then "true" else "false")
  | .null => Except.ok ("null")
  | .unsupported d =>
      Except.error (GeoJSONError.encodingFailed ("json: unsupported type: " ++ d))

/-- Model of Go's `map[string]any`: nil, or a finite list of entries (the
concrete maps appearing below have distinct keys, as Go maps do). -/
abbrev GoMap := GoList (String × GoValue)

/-- Insertion of an entry into a key-sorted list of entries. -/
def insertByKey (e : String × GoValue) :
    List (String × GoValue) → List (String × GoValue)
  | [] => [e]
  | f :: fs => if e.1 ≤ f.1 then e :: f :: fs else f :: insertByKey e fs

/-- Key-sorting of map entries, as `encoding/json` sorts map keys before
encoding. -/
def sortByKey : List (String × GoValue) → List (String × GoValue)
  | [] => []
  | e :: es => insertByKey e (sortByKey es)

/-- Rendering of one `key: value` member of a JSON object. -/
def marshalEntry (e : String × GoValue) : Except GeoJSONError String :=
  match GoValue.marshal e.2 with
  | Except.error err => Except.error err
  | Except.ok v => Except.ok (marshalString e.1 ++ ":" ++ v)

/-- Model of `json.Marshal` on a `map[string]any`: `null` for the nil map,
otherwise a JSON object of the entries in key order. -/
def GoMap.marshal : GoMap → Except GeoJSONError String
  | .goNil => Except.ok ("null")
  | .mk entries =>
      match (sortByKey entries).mapM marshalEntry with
      | Except.error e => Except.error e
      | Except.ok parts =>
          Except.ok ("\x7b" ++ String.intercalate (",") parts ++ "\x7d")

/-- Model of `Feature` (geojson.go): a geometry plus a `map[string]any` of
properties. -/
structure Feature where
  geometry : Geometry
  properties : GoMap

/-- Model of the `ToFeature` methods of the geometry variants (geojson.go):
each wraps the receiver and the given properties in a `Feature`. -/
def Geometry.ToFeature (g : Geometry) (properties : GoMap) : Feature :=
  ⟨g, properties⟩

/-- Model of `NewFeature` (geojson.go). -/
def NewFeature (geometry : Geometry) (properties : GoMap) : Feature :=
  ⟨geometry, properties⟩

/-- Model of `Feature.Type` (geojson.go): the literal `"Feature"`. -/
def Feature.Type' (_ : Feature) : String := "Feature"

/-- Model of `Feature.MarshalJSON` (geojson.go): a JSON object with the
`type` tag first, then the embedded raw fields `geometry` and `properties`.
The `feature` case of `ToText` below reaches this method through the
`*Feature` pointer receiver. -/
def Feature.MarshalJSON (f : Feature) : Except GeoJSONError String :=
  match GoMap.marshal f.properties with
  | Except.error e => Except.error e
  | Except.ok props =>
      Except.ok ("\x7b\"type\":\"" ++ Feature.Type' f ++ "\",\"geometry\":" ++
        Geometry.MarshalJSON f.geometry ++ ",\"properties\":" ++ props ++ "\x7d")

/-- Model of `FeatureCollection` (geojson.go): a Go slice of features. -/
abbrev FeatureCollection := GoList Feature

/-- Model of `NewFeatureCollection` (geojson.go): returns the variadic
argument slice itself (the nil slice when no features are given). -/
def NewFeatureCollection (features : List Feature) : FeatureCollection :=
  goVariadic features

/-- Model of `FeatureCollection.Type` (geojson.go): the literal
`"FeatureCollection"`. -/
def FeatureCollection.Type' (_ : FeatureCollection) : String := "FeatureCollection"

/-- Model of `FeatureCollection.With` (geojson.go) at the level of slice
values: `append(c, features...)` returns `c` itself when no features are
appended, and otherwise a slice ranging over `c`'s elements followed by
`features` (see `goAppend` below for the backing-array-level model of the
same method). -/
def FeatureCollection.With (c : FeatureCollection) (features : List Feature) :
    FeatureCollection :=
  match c, features with
  | GoList.goNil, [] => GoList.goNil
  | GoList.goNil, fs => GoList.mk fs
  | GoList.mk l, fs => GoList.mk (l ++ fs)

/-- Model of `FeatureCollection.MarshalJSON` (geojson.go): a JSON object with
the `type` tag and the `features` slice (`null` when the slice is nil). -/
def FeatureCollection.MarshalJSON (c : FeatureCollection) : Except GeoJSONError String :=
  match c with
  | GoList.goNil =>
      Except.ok ("\x7b\"type\":\"" ++ FeatureCollection.Type' c ++ "\",\"features\":null\x7d")
  | GoList.mk l =>
      match l.mapM Feature.MarshalJSON with
      | Except.error e => Except.error e
      | Except.ok parts =>
          Except.ok ("\x7b\"type\":\"" ++ FeatureCollection.Type' c ++ "\",\"features\":" ++
            marshalArray parts ++ "\x7d")

/-- Model of the `Object` interface (geojson.go): the values acceptable to
`ToText`.  The `feature` and `featureCollection` cases stand for the pointer
receivers (`*Feature`, `*FeatureCollection`) through which the corresponding
`MarshalJSON` methods are invoked. -/
inductive Object where
  | geometry (g : Geometry) : Object
  | feature (f : Feature) : Object
  | featureCollection (c : FeatureCollection) : Object

/-- Model of `Object.Type` across the three kinds of top-level objects. -/
def Object.Type' : Object → String
  | .geometry g => Geometry.Type' g
  | .feature f => Feature.Type' f
  | .featureCollection c => FeatureCollection.Type' c

/-- Model of `ToText` (geojson.go): `json.Marshal` on the object. -/
def ToText : Object → Except GeoJSONError String
  | .geometry g => Except.ok (Geometry.MarshalJSON g)
  | .feature f => Feature.MarshalJSON f
  | .featureCollection c => FeatureCollection.MarshalJSON c

/-- A Go slice value over an explicit backing array: the array contents and
the slice length (the capacity is the backing array's length). -/
structure GoSlice (α : Type) where
  backing : List α
  len : Nat

/-- The elements the slice ranges over. -/
def GoSlice.view (s : GoSlice α) : List α := s.backing.take s.len

/-- Go's `cap` of the slice. -/
def GoSlice.cap (s : GoSlice α) : Nat := s.backing.length

/-- Model of Go's `append(s, xs...)` at the backing-array level: when the
spare capacity suffices, the new elements are written into the existing
backing array (which the original slice still ranges over); otherwise a
fresh array is allocated and the old backing array is untouched.  Returns
the resulting slice together with the (possibly updated) contents of `s`'s
backing array. -/
def goAppend (s : GoSlice α) (xs : List α) : GoSlice α × List α :=
  if s.len + xs.length ≤ s.backing.length then
    (⟨s.backing.take s.len ++ xs ++ s.backing.drop (s.len + xs.length), s.len + xs.length⟩,
     s.backing.take s.len ++ xs ++ s.backing.drop (s.len + xs.length))
  else
    (⟨s.backing.take s.len ++ xs, s.len + xs.length⟩, s.backing)

/-- Model of `FeatureCollection.With` (geojson.go) at the backing-array
level: exactly `append(c, features...)`. -/
def FeatureCollection.WithOnSlice (c : GoSlice Feature) (features : List Feature) :
    GoSlice Feature × List Feature :=
  goAppend c features

/-! Theorems about the claims of the specification. -/

/-- C1: the claim says a `GeometryCollection` encodes as
`{"type":"GeometryCollection","geometries":[...]}`.  The code has no
`MarshalJSON` for `GeometryCollection`, so `ToText` renders it as a bare
JSON array of the contained geometries' encodings, with no `type` and no
`geometries` key: evaluation of the code at
`NewGeometryCollection(NewPoint(Position{1, 2}))`. -/
theorem geometryCollection_encoding_lacks_geometries_key :
    ToText (Object.geometry (NewGeometryCollection [NewPoint ⟨1, 2⟩])) =
      Except.ok ("[\x7b\"type\":\"Point\",\"coordinates\":[1.000000,2.000000]\x7d]") :=
  rfl

/-- C3: the claim says an empty `FeatureCollection` encodes to
`{"type":"FeatureCollection","features":[]}`.  `NewFeatureCollection()`
returns Go's nil slice, which `encoding/json` renders as `null`, so the code
produces `{"type":"FeatureCollection","features":null}` instead: evaluation
of the code at the empty collection. -/
theorem empty_featureCollection_encodes_null_features :
    ToText (Object.featureCollection (NewFeatureCollection [])) =
      Except.ok ("\x7b\"type\":\"FeatureCollection\",\"features\":null\x7d") :=
  rfl

/-- C5: encoding the feature `NewPoint({lon:1,lat:2}).ToFeature({"name":"x"})`
via `ToText` yields exactly
`{"type":"Feature","geometry":{"type":"Point","coordinates":[1.000000,2.000000]},"properties":{"name":"x"}}`,
each coordinate in fixed-point decimal with six digits after the point. -/
theorem point_feature_end_to_end_encoding :
    ToText (Object.feature (Geometry.ToFeature (NewPoint ⟨1, 2⟩)
        (GoList.mk [("name", GoValue.str ("x"))]))) =
      Except.ok ("\x7b\"type\":\"Feature\",\"geometry\":\x7b\"type\":\"Point\",\"coordinates\":[1.000000,2.000000]\x7d,\"properties\":\x7b\"name\":\"x\"\x7d\x7d") :=
  rfl

/-- C6: the claim says every variant's `Type()` is its discriminator string
and the JSON encoding's `type` field equals it.  `Type()` is right for all
seven variants, but a `GeometryCollection` value encodes as a bare JSON
array containing no `type` member at all (it has no `MarshalJSON`):
evaluation of the code at `NewGeometryCollection(NewPoint(Position{3, 4}))`. -/
theorem geometryCollection_type_discriminator_vs_encoding :
    Geometry.Type' (NewGeometryCollection [NewPoint ⟨3, 4⟩]) = "GeometryCollection"
  ∧ Geometry.MarshalJSON (NewGeometryCollection [NewPoint ⟨3, 4⟩]) =
      "[\x7b\"type\":\"Point\",\"coordinates\":[3.000000,4.000000]\x7d]" :=
  ⟨rfl, rfl⟩

/-- C9: `ToText` never returns the error result on a geometry: geometries
contain no property mappings, and positions and the fixed `type` tags always
serialize, so the `encodingFailed` path (reachable through features whose
properties hold an unsupported value) is never taken for a geometry. -/
theorem toText_total_on_geometries (g : Geometry) :
    ∃ s, ToText (Object.geometry g) = Except.ok s :=
  ⟨Geometry.MarshalJSON g, rfl⟩

/-- C10: `NewMultiPoint`, `NewMultiLineString` and `NewMultiPolygon` accept
zero arguments and succeed, producing a geometry whose coordinate slice is
the nil slice of length `0` (whereas `NewLineString` and `NewLinearRing`
demand two resp. four leading positions in their very signatures). -/
theorem multi_geometry_constructors_accept_zero :
    NewMultiPoint [] = Geometry.multiPoint GoList.goNil
  ∧ GoList.length (GoList.goNil : GoList Position) = 0
  ∧ NewMultiLineString [] = Geometry.multiLineString GoList.goNil
  ∧ GoList.length (GoList.goNil : GoList LineStringCoordinates) = 0
  ∧ NewMultiPolygon [] = Geometry.multiPolygon GoList.goNil
  ∧ GoList.length (GoList.goNil : GoList PolygonCoordinates) = 0 :=
  ⟨rfl, rfl, rfl, rfl, rfl, rfl⟩

/-- C7: the coordinate-array builders preserve their arguments in input
order: `NewLineStringCoordinates(first, second, rest...)` returns exactly
`first, second, rest...` (length `2 + len(rest)`), and
`NewPolygonCoordinates(outerBoundary, holes...)` returns the outer boundary
first followed by the holes in order (length `1 + len(holes)`). -/
theorem coordinate_builders_preserve_input_order (c0 c1 : Position)
    (cn : List Position) (outerBoundary : LinearRing) (holes : List LinearRing) :
    NewLineStringCoordinates c0 c1 cn = c0 :: c1 :: cn
  ∧ (NewLineStringCoordinates c0 c1 cn).length = 2 + cn.length
  ∧ NewPolygonCoordinates outerBoundary holes = outerBoundary :: holes
  ∧ (NewPolygonCoordinates outerBoundary holes).length = 1 + holes.length := by
  refine ⟨rfl, ?_, rfl, ?_⟩ <;>
    simp [NewLineStringCoordinates, NewPolygonCoordinates] <;> omega

/-- C2: `NewLinearRing(p0, p1, p2, p3, rest...)` fails with the InvalidRing
condition exactly when the last supplied position differs from `p0` by
value; when it equals `p0`, construction succeeds with the concatenated
ring, whose first and last elements are equal and whose length is
`4 + len(rest)`. -/
theorem newLinearRing_closure_check (c0 c1 c2 c3 : Position) (cn : List Position) :
    (cn.getLastD c3 ≠ c0 →
      NewLinearRing c0 c1 c2 c3 cn =
        Except.error (GeoJSONError.invalidRing
          ("start position does not match end position")))
  ∧ (cn.getLastD c3 = c0 →
      NewLinearRing c0 c1 c2 c3 cn = Except.ok ([c0, c1, c2, c3] ++ cn)
      ∧ ([c0, c1, c2, c3] ++ cn).head (by simp) = c0
      ∧ ([c0, c1, c2, c3] ++ cn).getLast (by simp) = c0
      ∧ ([c0, c1, c2, c3] ++ cn).length = 4 + cn.length) := by
  have hlast : ∀ h : ([c0, c1, c2, c3] ++ cn) ≠ [],
      ([c0, c1, c2, c3] ++ cn).getLast h = cn.getLastD c3 := by
    intro h
    simp only [List.cons_append, List.nil_append] at h ⊢
    rw [List.getLast_eq_getLastD]
    simp only [List.getLastD_cons]
  constructor
  · intro hne
    unfold NewLinearRing
    rw [hlast, if_pos hne]
  · intro heq
    refine ⟨?_, rfl, ?_, ?_⟩
    · unfold NewLinearRing
      rw [hlast, if_neg (not_not_intro heq)]
    · rw [hlast]
      exact heq
    · simp only [List.length_append, List.length_cons, List.length_nil]

/-- C2 witness: the closure check at concrete rings, one open
(`(0,0),(1,0),(1,1),(0,1)`, rejected) and one closed
(`(0,0),(1,0),(1,1),(0,0)`, accepted with first equal to last and length
four). -/
theorem newLinearRing_closure_check_witness :
    NewLinearRing ⟨0, 0⟩ ⟨1, 0⟩ ⟨1, 1⟩ ⟨0, 1⟩ [] =
      Except.error (GeoJSONError.invalidRing
        ("start position does not match end position"))
  ∧ NewLinearRing ⟨0, 0⟩ ⟨1, 0⟩ ⟨1, 1⟩ ⟨0, 0⟩ [] =
      Except.ok [⟨0, 0⟩, ⟨1, 0⟩, ⟨1, 1⟩, ⟨0, 0⟩]
  ∧ (([⟨0, 0⟩, ⟨1, 0⟩, ⟨1, 1⟩, ⟨0, 0⟩] : List Position) ++ []).head (by simp) = ⟨0, 0⟩
  ∧ (([⟨0, 0⟩, ⟨1, 0⟩, ⟨1, 1⟩, ⟨0, 0⟩] : List Position) ++ []).getLast (by simp) = ⟨0, 0⟩
  ∧ (([⟨0, 0⟩, ⟨1, 0⟩, ⟨1, 1⟩, ⟨0, 0⟩] : List Position) ++ []).length = 4 :=
  ⟨(newLinearRing_closure_check ⟨0, 0⟩ ⟨1, 0⟩ ⟨1, 1⟩ ⟨0, 1⟩ []).1 (by decide),
   ((newLinearRing_closure_check ⟨0, 0⟩ ⟨1, 0⟩ ⟨1, 1⟩ ⟨0, 0⟩ []).2 (by decide)).1,
   ((newLinearRing_closure_check ⟨0, 0⟩ ⟨1, 0⟩ ⟨1, 1⟩ ⟨0, 0⟩ []).2 (by decide)).2.1,
   ((newLinearRing_closure_check ⟨0, 0⟩ ⟨1, 0⟩ ⟨1, 1⟩ ⟨0, 0⟩ []).2 (by decide)).2.2.1,
   ((newLinearRing_closure_check ⟨0, 0⟩ ⟨1, 0⟩ ⟨1, 1⟩ ⟨0, 0⟩ []).2 (by decide)).2.2.2⟩

/-- C8: a feature with Go's nil property map encodes its `properties` key as
JSON `null` (not `{}`), while a non-nil — possibly empty — map encodes as a
JSON object of the map's entries (in the key order `encoding/json` uses). -/
theorem feature_properties_nil_encodes_null (g : Geometry)
    (entries : List (String × GoValue)) :
    Feature.MarshalJSON ⟨g, GoList.goNil⟩ =
      Except.ok ("\x7b\"type\":\"Feature\",\"geometry\":" ++ Geometry.MarshalJSON g ++
        ",\"properties\":null\x7d")
  ∧ ∀ props, GoMap.marshal (GoList.mk entries) = Except.ok props →
      Feature.MarshalJSON ⟨g, GoList.mk entries⟩ =
        Except.ok ("\x7b\"type\":\"Feature\",\"geometry\":" ++ Geometry.MarshalJSON g ++
          ",\"properties\":" ++ props ++ "\x7d")
      ∧ ∃ parts, (sortByKey entries).mapM marshalEntry = Except.ok parts
          ∧ props = "\x7b" ++ String.intercalate (",") parts ++ "\x7d" := by
  constructor
  · simp [Feature.MarshalJSON, GoMap.marshal, Feature.Type', String.append_assoc]
  · intro props hprops
    constructor
    · simp only [Feature.MarshalJSON, hprops]
      simp [Feature.Type', String.append_assoc]
    · cases hm : (sortByKey entries).mapM marshalEntry with
      | error e =>
          exfalso
          simp only [GoMap.marshal] at hprops
          rw [hm] at hprops
          simp at hprops
      | ok parts =>
          refine ⟨parts, rfl, ?_⟩
          simp only [GoMap.marshal] at hprops
          rw [hm] at hprops
          injection hprops with hp
          exact hp.symm

/-- C8 witness: the property encodings of a point feature with the nil map
and with a non-nil map holding the single entry `"a": "b"`. -/
theorem feature_properties_nil_encodes_null_witness :
    Feature.MarshalJSON ⟨NewPoint ⟨1, 2⟩, GoList.goNil⟩ =
      Except.ok ("\x7b\"type\":\"Feature\",\"geometry\":\x7b\"type\":\"Point\",\"coordinates\":[1.000000,2.000000]\x7d,\"properties\":null\x7d")
  ∧ Feature.MarshalJSON ⟨NewPoint ⟨1, 2⟩, GoList.mk [("a", GoValue.str ("b"))]⟩ =
      Except.ok ("\x7b\"type\":\"Feature\",\"geometry\":\x7b\"type\":\"Point\",\"coordinates\":[1.000000,2.000000]\x7d,\"properties\":\x7b\"a\":\"b\"\x7d\x7d") :=
  ⟨(feature_properties_nil_encodes_null (NewPoint ⟨1, 2⟩) []).1,
   ((feature_properties_nil_encodes_null (NewPoint ⟨1, 2⟩)
       [("a", GoValue.str ("b"))]).2 ("\x7b\"a\":\"b\"\x7d") rfl).1⟩

/-- Sample features used by the C4 witness below. -/
def sampleFeatureA : Feature := NewFeature (NewPoint ⟨1, 1⟩) GoList.goNil

/-- Second sample feature for the C4 witness. -/
def sampleFeatureB : Feature := NewFeature (NewPoint ⟨2, 2⟩) GoList.goNil

/-- Third sample feature for the C4 witness. -/
def sampleFeatureC : Feature := NewFeature (NewPoint ⟨3, 3⟩) GoList.goNil

/-- C4: `c.With(fs...)` ranges over `c`'s original features followed by `fs`
in order, with length `len(c) + len(fs)`, and the call leaves `c` itself
unchanged — even at the backing-array level: `append` never writes below
index `len(c)`, so `c`'s view over its (possibly updated) backing array is
untouched.  Stated both over the backing-array model (`WithOnSlice`, for any
slice satisfying Go's `len ≤ cap` invariant) and over slice values
(`FeatureCollection.With`). -/
theorem featureCollection_with_appends_without_mutating (c : GoSlice Feature)
    (fc : FeatureCollection) (fs : List Feature) (hc : c.len ≤ c.cap) :
    (FeatureCollection.WithOnSlice c fs).1.view = c.view ++ fs
  ∧ (FeatureCollection.WithOnSlice c fs).1.len = c.len + fs.length
  ∧ GoSlice.view ⟨(FeatureCollection.WithOnSlice c fs).2, c.len⟩ = c.view
  ∧ GoList.toList (FeatureCollection.With fc fs) = GoList.toList fc ++ fs
  ∧ GoList.length (FeatureCollection.With fc fs) = GoList.length fc + fs.length := by
  have htake : (c.backing.take c.len).length = c.len := by
    have : c.len ≤ c.backing.length := hc
    simp only [List.length_take]
    omega
  refine ⟨?_, ?_, ?_, ?_, ?_⟩
  · unfold FeatureCollection.WithOnSlice goAppend
    by_cases h : c.len + fs.length ≤ c.backing.length
    · simp only [if_pos h]
      show ((c.backing.take c.len ++ fs) ++ _).take (c.len + fs.length) = _
      rw [List.take_left' (by simp only [List.length_append, htake])]
      rfl
    · simp only [if_neg h]
      show (c.backing.take c.len ++ fs).take (c.len + fs.length) = _
      rw [List.take_of_length_le (by simp only [List.length_append, htake]; omega)]
      rfl
  · unfold FeatureCollection.WithOnSlice goAppend
    by_cases h : c.len + fs.length ≤ c.backing.length
    · simp only [if_pos h]
    · simp only [if_neg h]
  · unfold FeatureCollection.WithOnSlice goAppend
    by_cases h : c.len + fs.length ≤ c.backing.length
    · simp only [if_pos h]
      show ((c.backing.take c.len ++ fs) ++ _).take c.len = _
      rw [List.append_assoc, List.take_left' htake]
      rfl
    · simp only [if_neg h]
  · cases fc with
    | goNil => cases fs <;> simp [FeatureCollection.With, GoList.toList]
    | mk l => simp [FeatureCollection.With, GoList.toList]
  · cases fc with
    | goNil => cases fs <;> simp [FeatureCollection.With, GoList.length]
    | mk l => simp [FeatureCollection.With, GoList.length]

/-- C4 witness: appending one feature to a length-1 slice over a capacity-2
backing array (so the append writes in place) extends the view in order,
yields length 2, and leaves the original slice's view unchanged; likewise at
the slice-value level. -/
theorem featureCollection_with_appends_without_mutating_witness :
    (FeatureCollection.WithOnSlice ⟨[sampleFeatureA, sampleFeatureB], 1⟩ [sampleFeatureC]).1.view =
      [sampleFeatureA, sampleFeatureC]
  ∧ (FeatureCollection.WithOnSlice ⟨[sampleFeatureA, sampleFeatureB], 1⟩ [sampleFeatureC]).1.len = 2
  ∧ GoSlice.view ⟨(FeatureCollection.WithOnSlice ⟨[sampleFeatureA, sampleFeatureB], 1⟩
        [sampleFeatureC]).2, 1⟩ = [sampleFeatureA]
  ∧ GoList.toList (FeatureCollection.With (GoList.mk [sampleFeatureA]) [sampleFeatureC]) =
      [sampleFeatureA, sampleFeatureC]
  ∧ GoList.length (FeatureCollection.With (GoList.mk [sampleFeatureA]) [sampleFeatureC]) = 2 := by
  have h := featureCollection_with_appends_without_mutating
    ⟨[sampleFeatureA, sampleFeatureB], 1⟩ (GoList.mk [sampleFeatureA]) [sampleFeatureC]
    (by decide)
  exact ⟨h.1, h.2.1, h.2.2.1, h.2.2.2.1, h.2.2.2.2⟩

end GoGeoJSON
